import Mathlib

/-!
Verification of the saas-centinela telemetry pipeline.

Shallow embedding of the repository code in Lean 4.  Each definition
mirrors one source function (file and symbol named in its doc comment);
stateful code is modelled by explicit state passing.  JavaScript numbers
that only ever hold integers are modelled as `Int`/`Nat`; the retry
backoff arithmetic, which genuinely uses fractions, is computed exactly
over `Int` with its denominator made explicit.  `Math.random()` is
modelled as an explicit stream of draws supplied as arguments, one per
call site, in call order.
-/

namespace Centinela

/-! ## Tenant rate limiter

From the fastify plugin in the backend (symbols `checkRateLimit` and
`tenantRateLimit`).  The Redis sorted set for one tenant key is a list of
entries; a member string `` `${now}:${Math.random()}` `` is modelled as the
pair `(now, draw)` where `draw` identifies the `Math.random()` result. -/

structure RateLimitTierConfig where
  maxRequests : Nat
  windowSeconds : Nat
deriving Repr, DecidableEq

/-- One member of the per-tenant Redis sorted set: `member` models the
string `` `${now}:${Math.random()}` ``, `score` the zadd score. -/
structure ZSetEntry where
  member : Int × Nat
  score : Int
deriving Repr, DecidableEq

abbrev ZSet := List ZSetEntry

/-- Redis `ZREMRANGEBYSCORE key lo hi`: drop entries with `lo ≤ score ≤ hi`. -/
def zremrangebyscore (s : ZSet) (lo hi : Int) : ZSet :=
  s.filter (fun e => !(decide (lo ≤ e.score) && decide (e.score ≤ hi)))

/-- Redis `ZCARD key`. -/
def zcard (s : ZSet) : Nat := s.length

/-- Redis `ZADD key score member`: update the score when the member exists,
append it otherwise. -/
def zadd (s : ZSet) (score : Int) (m : Int × Nat) : ZSet :=
  if s.any (fun e => e.member = m) then
    s.map (fun e => if e.member = m then { e with score := score } else e)
  else
    s ++ [⟨m, score⟩]

/-- Redis `ZREM key member`. -/
def zrem (s : ZSet) (m : Int × Nat) : ZSet :=
  s.filter (fun e => e.member ≠ m)

structure RateLimitResult where
  allowed : Bool
  remaining : Int
  resetAt : Int
  limit : Nat
deriving Repr, DecidableEq

/-- `checkRateLimit(tenantId, tierConfig)` from the rate-limit plugin.
`r1` is the `Math.random()` draw used when adding the entry, `r2` the
separate draw made on the removal line for a rejected request (the source
calls `Math.random()` twice).  Returns the reply data and the sorted set
after the pipeline (and the conditional `zrem`) ran. -/
def checkRateLimit (cfg : RateLimitTierConfig) (now : Int) (r1 r2 : Nat)
    (s : ZSet) : RateLimitResult × ZSet :=
  let windowStart := now - (cfg.windowSeconds : Int) * 1000
  let s1 := zremrangebyscore s 0 windowStart
  let currentCount := zcard s1
  let s2 := zadd s1 now (now, r1)
  let remaining := max 0 ((cfg.maxRequests : Int) - (currentCount : Int) - 1)
  let allowed := decide (currentCount < cfg.maxRequests)
  let resetAt := now + (cfg.windowSeconds : Int) * 1000
  let s3 := if allowed then s2 else zrem s2 (now, r2)
  (⟨allowed, remaining, resetAt, cfg.maxRequests⟩, s3)

/-- Reply of the `tenantRateLimit` preHandler for one request. -/
inductive LimiterReply where
  | allow (remaining : Int)
  | tooMany (retryAfter : Int)
deriving Repr, DecidableEq

/-- The `tenantRateLimit` decorator body for a request that has a tenant:
run `checkRateLimit`, set headers, and send 429 with
`Retry-After = ceil((resetAt - now) / 1000)` when not allowed. -/
def tenantRateLimitStep (cfg : RateLimitTierConfig) (now : Int) (r1 r2 : Nat)
    (s : ZSet) : LimiterReply × ZSet :=
  let (res, s1) := checkRateLimit cfg now r1 r2 s
  if res.allowed then (.allow res.remaining, s1)
  else (.tooMany (Int.ediv (res.resetAt - now + 999) 1000), s1)

/-- A sequence of requests against one tenant key: each triple is
`(now, r1, r2)` for that request. -/
def runRequests (cfg : RateLimitTierConfig) :
    List (Int × Nat × Nat) → ZSet → List LimiterReply × ZSet
  | [], s => ([], s)
  | (now, r1, r2) :: rest, s =>
    let (reply, s1) := tenantRateLimitStep cfg now r1 r2 s
    let (replies, s2) := runRequests cfg rest s1
    (reply :: replies, s2)

/-! ## API-key auth gate (`verifyApiKey`) and limiter fail-open -/

/-- Split a character list at spaces, JavaScript `split(' ')` style: the
result always has at least one (possibly empty) piece. -/
def splitOnSpaceAux : List Char → List Char → List String
  | [], acc => [String.mk acc.reverse]
  | c :: cs, acc =>
    if c = ' ' then String.mk acc.reverse :: splitOnSpaceAux cs []
    else splitOnSpaceAux cs (c :: acc)

/-- JavaScript `s.split(' ')`. -/
def jsSplitSpace (s : String) : List String := splitOnSpaceAux s.toList []

/-- Parse the Authorization header the way `verifyApiKey` does:
`const [scheme, token] = authHeader.split(' ')`, then require
`scheme === 'Bearer'` and a truthy token. -/
def parseAuthHeader (authHeader : Option String) : Option String :=
  match authHeader with
  | none => none
  | some h =>
    match jsSplitSpace h with
    | scheme :: token :: _ =>
      if scheme = "Bearer" ∧ token ≠ "" then some token else none
    | _ => none

/-- Outcome of the key-store query `SELECT tenant_id FROM api_keys WHERE
key_hash = ... AND is_active = true`: either it throws, or it returns the
list of matching tenant ids. -/
abbrev KeyLookup := Except Unit (List String)

/-- `verifyApiKey` from the auth plugin: the returned pair is
`(HTTP error code sent, tenant attached to the request)`.  A `none` code
means the preHandler let the request proceed. -/
def verifyApiKey (authHeader : Option String) (db : KeyLookup) :
    Option Nat × Option String :=
  match authHeader with
  | none => (some 401, none)
  | some _ =>
    match parseAuthHeader authHeader with
    | none => (some 401, none)
    | some _token =>
      match db with
      | .error _ => (some 500, none)
      | .ok rows =>
        match rows with
        | [] => (some 401, none)
        | tenantId :: _ => (none, some tenantId)

/-- The `tenantRateLimit` decorator seen from the outside: `some 429` when
the request is rejected, `none` when it proceeds.  `outcome` is the result
of the tier lookup plus `checkRateLimit` call; `.error` models any thrown
error, which the decorator catches and swallows (fail-open). -/
def tenantRateLimitDecision (tenantId : Option String)
    (outcome : Except Unit RateLimitResult) : Option Nat :=
  match tenantId with
  | none => none
  | some _ =>
    match outcome with
    | .error _ => none
    | .ok res => if res.allowed then none else some 429

/-! ## Edge Collector: metrics, buffer, retry queue, transport

From `collector/src/metrics.ts`, `collector/src/buffer.ts`,
`collector/src/retry-queue.ts` and `collector/src/transport.ts`.  Events
are identified by a `Nat`; HTTP send outcomes are supplied as explicit
`Bool` lists (one per event, in `Promise.all` order), since the remote is
outside the program. -/

/-- The counter fields of the `Metrics` singleton. -/
structure Metrics where
  eventsReceived : Nat
  eventsSent : Nat
  eventsFailed : Nat
  eventsDropped : Nat
  retryQueued : Nat
  retrySuccess : Nat
  dlqCount : Nat
deriving Repr, DecidableEq

def Metrics.init : Metrics := ⟨0, 0, 0, 0, 0, 0, 0⟩

/-- `events.pending` as computed by `Metrics.getSnapshot`:
`eventsReceived - eventsSent - eventsFailed - eventsDropped`. -/
def Metrics.pending (m : Metrics) : Int :=
  (m.eventsReceived : Int) - m.eventsSent - m.eventsFailed - m.eventsDropped

/-- One entry of `RetryQueue.queue`. -/
structure RetryItem where
  eventId : Nat
  attempts : Nat
  nextRetryAt : Int
deriving Repr, DecidableEq

/-- The two lists held by `RetryQueue`. -/
structure RetryQueueState where
  queue : List RetryItem
  dlq : List Nat
deriving Repr, DecidableEq

structure RetryConfig where
  maxRetries : Nat
  baseDelayMs : Int
  maxDelayMs : Int
deriving Repr, DecidableEq

/-- `RetryQueue.calculateBackoff`: exponential delay capped at the max,
plus jitter `cappedDelay * 0.2 * (rand - 0.5)`, floored.  The
`Math.random()` draw is supplied with thousandth precision as
`rand / 1000`, so the floored value is computed exactly over `Int`:
`capped + capped * 0.2 * (rand / 1000 - 0.5)
  = (10000 * capped + capped * (2 * rand - 1000)) / 10000`,
and `Int.ediv` by the positive constant `10000` is the floor. -/
def calculateBackoff (cfg : RetryConfig) (attempt : Nat) (rand : Nat) : Int :=
  let exponentialDelay := cfg.baseDelayMs * 2 ^ (attempt - 1)
  let cappedDelay := min exponentialDelay cfg.maxDelayMs
  Int.ediv (10000 * cappedDelay + cappedDelay * (2 * (rand : Int) - 1000)) 10000

/-- `RetryQueue.enqueue(event, currentAttempts)`: increments the attempt
count, moves the event to the DLQ when it exceeds `maxRetries`, otherwise
schedules it at `now + backoff`.  Also applies the metric increments the
method performs. -/
def RetryQueue.enqueue (cfg : RetryConfig) (now : Int) (rand : Nat)
    (eventId : Nat) (currentAttempts : Nat) (s : RetryQueueState)
    (m : Metrics) : RetryQueueState × Metrics :=
  let attempts := currentAttempts + 1
  if cfg.maxRetries < attempts then
    ({ s with dlq := s.dlq ++ [eventId] },
     { m with dlqCount := m.dlqCount + 1 })
  else
    let delay := calculateBackoff cfg attempts rand
    ({ s with queue := s.queue ++ [⟨eventId, attempts, now + delay⟩] },
     { m with retryQueued := m.retryQueued + 1 })

/-- `RetryQueue.getReadyEvents`: extract the `(event, attempts)` pairs with
`nextRetryAt ≤ now`, keep the rest queued. -/
def getReadyEvents (now : Int) (s : RetryQueueState) :
    List (Nat × Nat) × RetryQueueState :=
  let ready := s.queue.filter (fun it => decide (it.nextRetryAt ≤ now))
  let still := s.queue.filter (fun it => !decide (it.nextRetryAt ≤ now))
  (ready.map (fun it => (it.eventId, it.attempts)), { s with queue := still })

/-- `MessageBuffer` state: the FIFO queue plus its private dropped count. -/
structure BufferState where
  queue : List Nat
  droppedCount : Nat
deriving Repr, DecidableEq

/-- `MessageBuffer.push`: tail-drop when full. -/
def MessageBuffer.push (maxBufferSize : Nat) (b : BufferState) (e : Nat) :
    Bool × BufferState :=
  if maxBufferSize ≤ b.queue.length then
    (false, { b with droppedCount := b.droppedCount + 1 })
  else
    (true, { b with queue := b.queue ++ [e] })

/-- `MessageBuffer.popBatch`: remove and return up to `size` oldest events. -/
def MessageBuffer.popBatch (b : BufferState) (size : Nat) :
    List Nat × BufferState :=
  (b.queue.take size, { b with queue := b.queue.drop size })

/-- The transport-side state: retry queue, metrics, and the number of
single-event HTTP deliveries attempted so far (`sendWithTracking` calls,
the observable delivery attempts for one event). -/
structure TransportState where
  rq : RetryQueueState
  m : Metrics
  sendCalls : Nat
deriving Repr, DecidableEq

/-- The result loop of `HttpTransport.sendBatch` after the bulk fallback:
each event gets one `sendWithTracking(event, 0)` call; success increments
`sent`, failure increments `failed` and enqueues with `result.attempts = 1`. -/
def sendIndividual (cfg : RetryConfig) (now : Int) (rand : Nat) :
    List Nat → List Bool → TransportState → TransportState
  | [], _, t => t
  | e :: es, oks, t =>
    let t1 : TransportState :=
      if oks.headD false then
        { t with m := { t.m with eventsSent := t.m.eventsSent + 1 },
                 sendCalls := t.sendCalls + 1 }
      else
        let r := RetryQueue.enqueue cfg now rand e 1 t.rq
          { t.m with eventsFailed := t.m.eventsFailed + 1 }
        { rq := r.1, m := r.2, sendCalls := t.sendCalls + 1 }
    sendIndividual cfg now rand es oks.tail t1

/-- `HttpTransport.sendBatch`: empty batch is a no-op; a successful bulk
POST counts the whole batch as sent; otherwise fall back to individual
sends. -/
def sendBatchModel (cfg : RetryConfig) (now : Int) (rand : Nat) (bulkOk : Bool)
    (oks : List Bool) (events : List Nat) (t : TransportState) :
    TransportState :=
  if events.isEmpty then t
  else if bulkOk then
    { t with m := { t.m with eventsSent := t.m.eventsSent + events.length } }
  else sendIndividual cfg now rand events oks t

/-- The result loop of `HttpTransport.processRetries`: a successful retry
increments `sent` and `retrySuccess`; a failed one re-enqueues with
`result.attempts = attempts + 1`. -/
def retryResults (cfg : RetryConfig) (now : Int) (rand : Nat) :
    List (Nat × Nat) → List Bool → TransportState → TransportState
  | [], _, t => t
  | (e, a) :: rest, oks, t =>
    let t1 : TransportState :=
      if oks.headD false then
        { t with m := { t.m with eventsSent := t.m.eventsSent + 1,
                                 retrySuccess := t.m.retrySuccess + 1 },
                 sendCalls := t.sendCalls + 1 }
      else
        let r := RetryQueue.enqueue cfg now rand e (a + 1) t.rq t.m
        { rq := r.1, m := r.2, sendCalls := t.sendCalls + 1 }
    retryResults cfg now rand rest oks.tail t1

/-- `HttpTransport.processRetries`: extract the ready events and process
their send results. -/
def processRetriesModel (cfg : RetryConfig) (now : Int) (rand : Nat) (oks : List Bool)
    (t : TransportState) : TransportState :=
  let r := getReadyEvents now t.rq
  retryResults cfg now rand r.1 oks { t with rq := r.2 }

structure CollectorConfig where
  maxBufferSize : Nat
  batchSize : Nat
  retry : RetryConfig
deriving Repr, DecidableEq

structure CollectorState where
  buffer : BufferState
  t : TransportState
deriving Repr, DecidableEq

def CollectorState.init : CollectorState :=
  ⟨⟨[], 0⟩, ⟨⟨[], []⟩, Metrics.init, 0⟩⟩

/-- The externally triggered steps of the collector loop: receiving one
syslog event (`processMessage` in the servers), one flush-loop tick, and
one retry-loop tick.  `oks` carries the HTTP outcome per event. -/
inductive CEvent where
  | recv (id : Nat)
  | flush (bulkOk : Bool) (oks : List Bool) (now : Int) (rand : Nat)
  | retryPass (oks : List Bool) (now : Int) (rand : Nat)

/-- One collector step: `recv` is `processMessage` (increment `received`,
push, count a drop on tail-drop); `flush` pops a batch and runs
`sendBatch`; `retryPass` runs `processRetries`. -/
def collectorStep (cfg : CollectorConfig) (s : CollectorState) :
    CEvent → CollectorState
  | .recv id =>
    let m1 := { s.t.m with eventsReceived := s.t.m.eventsReceived + 1 }
    let p := MessageBuffer.push cfg.maxBufferSize s.buffer id
    if p.1 then { buffer := p.2, t := { s.t with m := m1 } }
    else
      { buffer := p.2,
        t := { s.t with m := { m1 with eventsDropped := m1.eventsDropped + 1 } } }
  | .flush bulkOk oks now rand =>
    let p := MessageBuffer.popBatch s.buffer cfg.batchSize
    { buffer := p.2, t := sendBatchModel cfg.retry now rand bulkOk oks p.1 s.t }
  | .retryPass oks now rand =>
    { s with t := processRetriesModel cfg.retry now rand oks s.t }

def runCollector (cfg : CollectorConfig) (tr : List CEvent) : CollectorState :=
  tr.foldl (collectorStep cfg) CollectorState.init

/-! ## Collector counter accounting -/

/-- The balance `received - sent - failed - dropped + retrySuccess`, the
quantity the collector steps conserve against the buffer size. -/
def Metrics.bal (m : Metrics) : Int :=
  (m.eventsReceived : Int) - m.eventsSent - m.eventsFailed - m.eventsDropped
    + m.retrySuccess

theorem enqueue_bal (cfg : RetryConfig) (now : Int) (rand : Nat)
    (eventId currentAttempts : Nat) (s : RetryQueueState) (m : Metrics) :
    ((RetryQueue.enqueue cfg now rand eventId currentAttempts s m).2).bal
      = m.bal := by
  by_cases h : cfg.maxRetries < currentAttempts + 1 <;>
    simp [RetryQueue.enqueue, h, Metrics.bal]

theorem sendIndividual_bal (cfg : RetryConfig) (now : Int) (rand : Nat) :
    ∀ (es : List Nat) (oks : List Bool) (t : TransportState),
    (sendIndividual cfg now rand es oks t).m.bal = t.m.bal - es.length := by
  intro es
  induction es with
  | nil => intro oks t; simp [sendIndividual]
  | cons e es ih =>
    intro oks t
    rw [sendIndividual, ih]
    by_cases h : oks.headD false = true
    · rw [if_pos h]
      simp only [Metrics.bal, List.length_cons]
      push_cast
      ring
    · rw [if_neg h]
      dsimp only
      rw [enqueue_bal]
      simp only [Metrics.bal, List.length_cons]
      push_cast
      ring

theorem retryResults_bal (cfg : RetryConfig) (now : Int) (rand : Nat) :
    ∀ (rs : List (Nat × Nat)) (oks : List Bool) (t : TransportState),
    (retryResults cfg now rand rs oks t).m.bal = t.m.bal := by
  intro rs
  induction rs with
  | nil => intro oks t; simp [retryResults]
  | cons r rs ih =>
    intro oks t
    obtain ⟨e, a⟩ := r
    rw [retryResults, ih]
    by_cases h : oks.headD false = true
    · rw [if_pos h]
      simp only [Metrics.bal]
      push_cast
      ring
    · rw [if_neg h]
      dsimp only
      rw [enqueue_bal]

theorem sendBatchModel_bal (cfg : RetryConfig) (now : Int) (rand : Nat)
    (bulkOk : Bool) (oks : List Bool) (events : List Nat)
    (t : TransportState) :
    (sendBatchModel cfg now rand bulkOk oks events t).m.bal
      = t.m.bal - events.length := by
  unfold sendBatchModel
  by_cases hev : events.isEmpty
  · rw [if_pos hev]
    rw [List.isEmpty_iff] at hev
    simp [hev]
  · rw [if_neg hev]
    by_cases hb : bulkOk
    · simp only [hb, if_pos]
      simp [Metrics.bal]
      ring
    · simp only [hb, Bool.false_eq_true, if_neg, not_false_iff]
      exact sendIndividual_bal cfg now rand events oks t

/-- The conserved relation: the counter balance always equals the number
of events currently buffered. -/
def CollectorInv (s : CollectorState) : Prop :=
  s.t.m.bal = (s.buffer.queue.length : Int)

theorem collectorStep_inv (cfg : CollectorConfig) (s : CollectorState)
    (ev : CEvent) (h : CollectorInv s) : CollectorInv (collectorStep cfg s ev) := by
  unfold CollectorInv at h ⊢
  cases ev with
  | recv id =>
    simp only [collectorStep, MessageBuffer.push]
    by_cases hfull : cfg.maxBufferSize ≤ s.buffer.queue.length
    · rw [if_pos hfull]
      simp [Metrics.bal] at h ⊢
      omega
    · rw [if_neg hfull]
      simp [Metrics.bal] at h ⊢
      omega
  | flush bulkOk oks now rand =>
    simp only [collectorStep, MessageBuffer.popBatch]
    rw [sendBatchModel_bal, h]
    simp only [List.length_take, List.length_drop]
    omega
  | retryPass oks now rand =>
    simp only [collectorStep, processRetriesModel]
    rw [retryResults_bal]
    simpa using h

theorem runCollector_inv_aux (cfg : CollectorConfig) :
    ∀ (tr : List CEvent) (s : CollectorState), CollectorInv s →
    CollectorInv (tr.foldl (collectorStep cfg) s) := by
  intro tr
  induction tr with
  | nil => intro s h; exact h
  | cons ev tr ih =>
    intro s h
    exact ih _ (collectorStep_inv cfg s ev h)

/-! ## Theorems for the collector (retry/DLQ and counters) -/

/-- The seed-case retry configuration: `max_retries = 2`,
`retry_base_delay_ms = 1000`, `retry_max_delay_ms = 30000`. -/
def cfgDlq : CollectorConfig := ⟨10000, 100, ⟨2, 1000, 30000⟩⟩

/-- One event received, then one flush tick against a remote that always
returns 500 (bulk fails, the individual send fails).  The jitter draw 500
means `Math.random() = 0.5`, i.e. zero jitter. -/
def dlqTracePrefix : List CEvent := [.recv 1, .flush false [false] 0 500]

/-- The same run continued with two retry-loop ticks, the remote still
failing every send. -/
def dlqTraceFull : List CEvent :=
  dlqTracePrefix ++ [.retryPass [false] 10000 500, .retryPass [false] 1000000 500]

/-- C2: with `max_retries = 2` and a remote that always returns 500, the
collector makes only TWO delivery attempts for the event, not three: after
the first failed send the event is stored with `attempts = 2` and its
single retry is scheduled `2 * base` (2000 ms) later, not `base`; the
failed retry then jumps the count past `maxRetries` and the event moves to
the DLQ (`metrics.retries.dlq = 1`).  `sendWithTracking` and `enqueue`
both increment the attempt count, so attempts advance by two per delivery. -/
theorem retry_double_count_two_attempts :
    (runCollector cfgDlq dlqTracePrefix).t.rq.queue = [⟨1, 2, 2000⟩] ∧
    (runCollector cfgDlq dlqTraceFull).t.sendCalls = 2 ∧
    (runCollector cfgDlq dlqTraceFull).t.m.dlqCount = 1 ∧
    (runCollector cfgDlq dlqTraceFull).t.rq.queue = [] ∧
    (runCollector cfgDlq dlqTraceFull).t.rq.dlq = [1] := by decide

/-- One event received, failing its first send, then succeeding on retry;
after this trace the buffer, the retry queue and the DLQ are all empty, so
a graceful shutdown completes with nothing left to flush. -/
def retrySuccessTrace : List CEvent :=
  dlqTracePrefix ++ [.retryPass [true] 10000 500]

/-- C5 counterexample: a shutdown-complete state (empty buffer, empty
retry queue, empty DLQ) whose `events.pending` is `-1`, not `0`: the
retried event was counted once under `failed` and once under `sent`. -/
theorem shutdown_pending_nonzero_counterexample :
    (runCollector cfgDlq retrySuccessTrace).buffer.queue = [] ∧
    (runCollector cfgDlq retrySuccessTrace).t.rq.queue = [] ∧
    (runCollector cfgDlq retrySuccessTrace).t.rq.dlq = [] ∧
    Metrics.pending (runCollector cfgDlq retrySuccessTrace).t.m = -1 ∧
    Metrics.pending (runCollector cfgDlq retrySuccessTrace).t.m ≠ 0 := by decide

/-- C5 (amended): in every reachable collector state the snapshot
counters satisfy `received = sent + failed + dropped + pending` (this is
the definition of `pending`), and `pending` equals the number of buffered
events minus the number of successful retries — so at shutdown completion
(empty buffer) `pending` is the negated count of retry successes, zero
exactly when no retry ever succeeded. -/
theorem collector_counters_identity (cfg : CollectorConfig) (tr : List CEvent) :
    ((runCollector cfg tr).t.m.eventsReceived : Int) =
        (runCollector cfg tr).t.m.eventsSent
        + (runCollector cfg tr).t.m.eventsFailed
        + (runCollector cfg tr).t.m.eventsDropped
        + Metrics.pending (runCollector cfg tr).t.m ∧
    Metrics.pending (runCollector cfg tr).t.m =
      ((runCollector cfg tr).buffer.queue.length : Int)
        - (runCollector cfg tr).t.m.retrySuccess := by
  have hinv : CollectorInv (runCollector cfg tr) := by
    apply runCollector_inv_aux
    simp [CollectorInv, CollectorState.init, Metrics.bal, Metrics.init]
  unfold CollectorInv Metrics.bal at hinv
  unfold Metrics.pending
  constructor
  · ring
  · omega

/-! ## Theorems for the rate limiter and the auth gate -/

/-- The `free` tier configured at 5 requests per 60 s, as in the seed case. -/
def freeTier : RateLimitTierConfig := ⟨5, 60⟩

/-- Six requests inside one minute (one per second); the `Math.random()`
draws are pairwise distinct, as almost surely in the source. -/
def sixRequests : List (Int × Nat × Nat) :=
  [(0, 0, 1), (1000, 2, 3), (2000, 4, 5), (3000, 6, 7), (4000, 8, 9), (5000, 10, 11)]

/-- C1: with tier free at 5 req/60 s, the first five requests are accepted
and the sixth returns 429 with `Retry-After = 60 ≤ 60`, but the sorted-set
cardinality ends at 6, not 5: the rejection path calls `zrem` with a member
built from a fresh `Math.random()` draw, so the entry just added for the
rejected request is never removed. -/
theorem rate_limit_reject_keeps_extra_entry :
    (runRequests freeTier sixRequests []).1 =
      [.allow 4, .allow 3, .allow 2, .allow 1, .allow 0, .tooMany 60] ∧
    zcard (runRequests freeTier sixRequests []).2 = 6 ∧
    zcard (runRequests freeTier sixRequests []).2 ≠ 5 := by decide

/-- C10: if the key-store query throws, `verifyApiKey` replies 500 and
attaches no tenant (fail-closed), for every request whose header reached
the query; the tenant rate limiter, by contrast, lets the request through
when its own check throws (fail-open). -/
theorem auth_fail_closed_limiter_fail_open
    (hdr : Option String) (tok : String) (t : String)
    (hparse : parseAuthHeader hdr = some tok) :
    verifyApiKey hdr (.error ()) = (some 500, none) ∧
    tenantRateLimitDecision (some t) (.error ()) = none := by
  refine ⟨?_, rfl⟩
  match hdr with
  | none => simp [parseAuthHeader] at hparse
  | some h => simp [verifyApiKey, hparse]

/-- Witness for `auth_fail_closed_limiter_fail_open` at a concrete header. -/
theorem auth_fail_closed_limiter_fail_open_witness :
    verifyApiKey (some "Bearer abc") (.error ()) = (some 500, none) ∧
    tenantRateLimitDecision (some "tenant-1") (.error ()) = none :=
  auth_fail_closed_limiter_fail_open (some "Bearer abc") "abc" "tenant-1" (by decide)

/-! ## Rules engine

From `backend/src/services/rules-engine.ts`: `RULES`, `evaluateRule`
(the grouping SQL made explicit) and `createDetection`.  The
`detections` table is a list of rows with ids handed out by a counter. -/

/-- The columns of a normalized event that the rules engine reads. -/
structure NEvent where
  id : Nat
  tenantId : String
  siteId : Option String
  sourceId : Option String
  ts : Int
  eventType : String
  srcIp : Option String
  srcUser : Option String
deriving Repr, DecidableEq

inductive GroupBy where
  | srcIp
  | srcUser
  | srcIpUser
deriving Repr, DecidableEq

structure RuleConfig where
  name : String
  description : String
  eventTypes : List String
  threshold : Nat
  windowMinutes : Nat
  severity : String
  groupBy : GroupBy
deriving Repr, DecidableEq

/-- The `RULES` configuration array. -/
def RULES : List RuleConfig :=
  [⟨"vpn_bruteforce", "Multiple VPN login failures from same IP",
    ["vpn_login_fail"], 3, 15, "high", .srcIp⟩,
   ⟨"admin_bruteforce", "Multiple admin login failures",
    ["admin_login_fail"], 3, 15, "critical", .srcIp⟩,
   ⟨"config_change_burst", "Multiple configuration changes in short period",
    ["config_change"], 10, 5, "medium", .srcUser⟩]

/-- The SQL grouping expression selected by `rule.groupBy`; `srcIpUser` is
`COALESCE(src_ip, '') || ':' || COALESCE(src_user, '')`. -/
def groupKeyOf (g : GroupBy) (e : NEvent) : Option String :=
  match g with
  | .srcIp => e.srcIp
  | .srcUser => e.srcUser
  | .srcIpUser => some ((e.srcIp.getD "") ++ ":" ++ (e.srcUser.getD ""))

/-- The full `GROUP BY tenant_id, site_id, source_id, <group expr>` key. -/
structure GroupId where
  tenantId : String
  siteId : Option String
  sourceId : Option String
  key : Option String
deriving Repr, DecidableEq

def groupIdOf (g : GroupBy) (e : NEvent) : GroupId :=
  ⟨e.tenantId, e.siteId, e.sourceId, groupKeyOf g e⟩

/-- The `HAVING` filter on the key:
`key IS NOT NULL AND key != '' AND key != ':'`. -/
def validGroupKey : Option String → Bool
  | none => false
  | some s => s ≠ "" && s ≠ ":"

/-- The candidate produced by `evaluateRule` for one qualifying group. -/
structure Detection where
  tenant_id : String
  site_id : Option String
  source_id : Option String
  detection_type : String
  severity : String
  group_key : String
  event_count : Nat
  first_event_at : Int
  last_event_at : Int
  related_event_ids : List Nat
deriving Repr, DecidableEq

/-- SQL `MIN(ts)` over a nonempty group given as head and tail. -/
def minTs (e : NEvent) (es : List NEvent) : Int :=
  es.foldl (fun m x => min m x.ts) e.ts

/-- SQL `MAX(ts)` over a nonempty group given as head and tail. -/
def maxTs (e : NEvent) (es : List NEvent) : Int :=
  es.foldl (fun m x => max m x.ts) e.ts

/-- `evaluateRule(rule, lookbackMinutes)`: over events with `ts ≥ since`
and `event_type` in the rule set, group by
`(tenant_id, site_id, source_id, group key)` and keep groups with
`COUNT(*) ≥ threshold` and a valid key; each yields one `Detection`
carrying the group count and its min/max timestamps. -/
def evaluateRule (rule : RuleConfig) (since : Int) (events : List NEvent) :
    List Detection :=
  let inWindow := events.filter
    (fun e => decide (since ≤ e.ts) && rule.eventTypes.contains e.eventType)
  let keys := (inWindow.map (groupIdOf rule.groupBy)).dedup
  keys.filterMap (fun k =>
    match inWindow.filter (fun e => groupIdOf rule.groupBy e = k) with
    | [] => none
    | e :: es =>
      if rule.threshold ≤ (e :: es).length ∧ validGroupKey k.key then
        some { tenant_id := k.tenantId, site_id := k.siteId,
               source_id := k.sourceId, detection_type := rule.name,
               severity := rule.severity, group_key := k.key.getD "",
               event_count := (e :: es).length,
               first_event_at := minTs e es, last_event_at := maxTs e es,
               related_event_ids := (e :: es).map (fun x => x.id) }
      else none)

/-- One row of the `detections` table (the columns the embedded code
touches; `window_minutes` is always inserted as the literal 15). -/
structure DRow where
  id : Nat
  tenantId : String
  siteId : Option String
  sourceId : Option String
  detectionType : String
  severity : String
  groupKey : String
  windowMinutes : Nat
  eventCount : Nat
  firstEventAt : Int
  lastEventAt : Int
  relatedEventIds : List Nat
  reportedDigestId : Option Nat
deriving Repr, DecidableEq

/-- The `WHERE` clause of the existing-detection probe in
`createDetection`: same tenant, type and group key, open
(`reported_digest_id IS NULL`), and `last_event_at ≥ first_event_at` of
the candidate. -/
def openMatch (d : Detection) (r : DRow) : Bool :=
  r.tenantId == d.tenant_id && r.detectionType == d.detection_type &&
  r.groupKey == d.group_key && decide (d.first_event_at ≤ r.lastEventAt) &&
  r.reportedDigestId == none

/-- The row inserted by `createDetection` when no open match exists. -/
def mkDRow (id : Nat) (d : Detection) : DRow :=
  ⟨id, d.tenant_id, d.site_id, d.source_id, d.detection_type, d.severity,
   d.group_key, 15, d.event_count, d.first_event_at, d.last_event_at,
   d.related_event_ids, none⟩

/-- `createDetection`: update the first open matching row (count, last
timestamp, related ids), or insert a new row.  Returns the table and the
next fresh id. -/
def createDetection (db : List DRow) (nextId : Nat) (d : Detection) :
    List DRow × Nat :=
  match db.find? (openMatch d) with
  | some r =>
    (db.map (fun row =>
       if row.id = r.id then
         { row with eventCount := d.event_count,
                    lastEventAt := d.last_event_at,
                    relatedEventIds := d.related_event_ids }
       else row), nextId)
  | none => (db ++ [mkDRow nextId d], nextId + 1)

/-- The open detections of one `(tenant_id, detection_type, group_key)`
bucket. -/
def openRowsFor (db : List DRow) (tenant dtype gkey : String) : List DRow :=
  db.filter (fun r =>
    r.tenantId == tenant && r.detectionType == dtype &&
    r.groupKey == gkey && r.reportedDigestId == none)

/-! ## Theorems for the rules engine -/

theorem foldl_min_le_init (a : Int) (es : List NEvent) :
    es.foldl (fun m x => min m x.ts) a ≤ a := by
  induction es generalizing a with
  | nil => simp
  | cons e es ih =>
    simp only [List.foldl_cons]
    exact le_trans (ih (min a e.ts)) (min_le_left _ _)

theorem init_le_foldl_max (a : Int) (es : List NEvent) :
    a ≤ es.foldl (fun m x => max m x.ts) a := by
  induction es generalizing a with
  | nil => simp
  | cons e es ih =>
    simp only [List.foldl_cons]
    exact le_trans (le_max_left _ _) (ih (max a e.ts))

theorem minTs_le_maxTs (e : NEvent) (es : List NEvent) :
    minTs e es ≤ maxTs e es :=
  le_trans (foldl_min_le_init _ _) (init_le_foldl_max _ _)

theorem minTs_append_le (e x : NEvent) (es : List NEvent) :
    minTs e (es ++ [x]) ≤ minTs e es := by
  unfold minTs
  rw [List.foldl_append]
  simp only [List.foldl_cons, List.foldl_nil]
  exact min_le_left _ _

/-- `evaluateRule` on a batch of events that all fall into one qualifying
group returns exactly that group as a single detection. -/
theorem evaluateRule_single_group (rule : RuleConfig) (since : Int)
    (e0 : NEvent) (es : List NEvent) (k : GroupId)
    (hk : ∀ e ∈ e0 :: es, groupIdOf rule.groupBy e = k)
    (hts : ∀ e ∈ e0 :: es, since ≤ e.ts)
    (hty : ∀ e ∈ e0 :: es, rule.eventTypes.contains e.eventType)
    (hvalid : validGroupKey k.key)
    (hth : rule.threshold ≤ (e0 :: es).length) :
    evaluateRule rule since (e0 :: es) =
      [{ tenant_id := k.tenantId, site_id := k.siteId, source_id := k.sourceId,
         detection_type := rule.name, severity := rule.severity,
         group_key := k.key.getD "", event_count := (e0 :: es).length,
         first_event_at := minTs e0 es, last_event_at := maxTs e0 es,
         related_event_ids := (e0 :: es).map (fun x => x.id) }] := by
  have hfilter : (e0 :: es).filter
      (fun e => decide (since ≤ e.ts) && rule.eventTypes.contains e.eventType)
      = e0 :: es := by
    apply List.filter_eq_self.mpr
    intro e he
    simp only [Bool.and_eq_true, decide_eq_true_eq]
    exact ⟨hts e he, hty e he⟩
  have hfilter2 : (e0 :: es).filter
      (fun e => decide (groupIdOf rule.groupBy e = k)) = e0 :: es := by
    apply List.filter_eq_self.mpr
    intro e he
    simpa using hk e he
  have hmap : (e0 :: es).map (groupIdOf rule.groupBy)
      = List.replicate (e0 :: es).length k := by
    have hall : ∀ x ∈ (e0 :: es).map (groupIdOf rule.groupBy), x = k := by
      intro x hx
      rcases List.mem_map.mp hx with ⟨e, he, rfl⟩
      exact hk e he
    have h2 := List.eq_replicate_of_mem hall
    rwa [List.length_map] at h2
  simp only [evaluateRule]
  rw [hfilter, hmap, List.replicate_dedup (by simp)]
  simp only [List.filterMap_cons, List.filterMap_nil]
  rw [hfilter2]
  dsimp only
  rw [if_pos ⟨hth, hvalid⟩]

/-- The in-place update `createDetection` applies to a matched open row:
new count, new last timestamp, new related ids. -/
def updateDRow (row : DRow) (d : Detection) : DRow :=
  { row with eventCount := d.event_count, lastEventAt := d.last_event_at,
             relatedEventIds := d.related_event_ids }

/-- `createDetection` against a table holding exactly one open row that
the candidate matches rewrites that row in place. -/
theorem createDetection_singleton_update (row : DRow) (nextId : Nat)
    (d : Detection) (h : openMatch d row = true) :
    createDetection [row] nextId d = ([updateDRow row d], nextId) := by
  unfold createDetection
  rw [List.find?_cons_of_pos _ h]
  simp [updateDRow]

/-- C7: a batch of normalized events that all fall into one group of a
rule, in window and meeting the threshold, yields exactly one detection
whose `event_count` is the group count, with the rule name, severity and
group key; storing it and then re-running with one further matching event
updates that same detection in place (`event_count` incremented by one,
still open), instead of creating a second one. -/
theorem rule_threshold_one_detection_then_update
    (rule : RuleConfig) (since : Int) (e0 eNew : NEvent) (es : List NEvent)
    (k : GroupId)
    (hk : ∀ e ∈ e0 :: (es ++ [eNew]), groupIdOf rule.groupBy e = k)
    (hts : ∀ e ∈ e0 :: (es ++ [eNew]), since ≤ e.ts)
    (hty : ∀ e ∈ e0 :: (es ++ [eNew]), rule.eventTypes.contains e.eventType)
    (hvalid : validGroupKey k.key)
    (hth : rule.threshold ≤ (e0 :: es).length) :
    ∃ d dNew : Detection,
      evaluateRule rule since (e0 :: es) = [d] ∧
      d.detection_type = rule.name ∧
      d.severity = rule.severity ∧
      d.group_key = k.key.getD "" ∧
      d.event_count = (e0 :: es).length ∧
      (createDetection [] 0 d).1.length = 1 ∧
      evaluateRule rule since (e0 :: (es ++ [eNew])) = [dNew] ∧
      dNew.event_count = (e0 :: es).length + 1 ∧
      (createDetection (createDetection [] 0 d).1
        (createDetection [] 0 d).2 dNew).1.length = 1 ∧
      ∀ r ∈ (createDetection (createDetection [] 0 d).1
              (createDetection [] 0 d).2 dNew).1,
        r.eventCount = (e0 :: es).length + 1 ∧ r.reportedDigestId = none := by
  have hsub : ∀ e ∈ e0 :: es, e ∈ e0 :: (es ++ [eNew]) := by
    intro e he
    rcases List.mem_cons.mp he with h | h
    · exact h ▸ List.mem_cons_self _ _
    · exact List.mem_cons_of_mem _ (List.mem_append_left _ h)
  have h1 := evaluateRule_single_group rule since e0 es k
    (fun e he => hk e (hsub e he)) (fun e he => hts e (hsub e he))
    (fun e he => hty e (hsub e he)) hvalid hth
  have h2 := evaluateRule_single_group rule since e0 (es ++ [eNew]) k
    hk hts hty hvalid
    (by
      simp only [List.length_cons, List.length_append,
        List.length_singleton] at hth ⊢
      omega)
  have hle : minTs e0 (es ++ [eNew]) ≤ maxTs e0 es :=
    le_trans (minTs_append_le e0 eNew es) (minTs_le_maxTs e0 es)
  have hmatch : openMatch
      { tenant_id := k.tenantId, site_id := k.siteId, source_id := k.sourceId,
        detection_type := rule.name, severity := rule.severity,
        group_key := k.key.getD "",
        event_count := (e0 :: (es ++ [eNew])).length,
        first_event_at := minTs e0 (es ++ [eNew]),
        last_event_at := maxTs e0 (es ++ [eNew]),
        related_event_ids := (e0 :: (es ++ [eNew])).map (fun x => x.id) }
      (mkDRow 0
        { tenant_id := k.tenantId, site_id := k.siteId, source_id := k.sourceId,
          detection_type := rule.name, severity := rule.severity,
          group_key := k.key.getD "", event_count := (e0 :: es).length,
          first_event_at := minTs e0 es, last_event_at := maxTs e0 es,
          related_event_ids := (e0 :: es).map (fun x => x.id) }) = true := by
    simp only [openMatch, mkDRow, beq_self_eq_true, Bool.true_and,
      Bool.and_true, decide_eq_true_eq]
    exact hle
  have hstep := createDetection_singleton_update _ 1 _ hmatch
  refine ⟨_, _, h1, rfl, rfl, rfl, rfl, rfl, h2, ?_, ?_, ?_⟩
  · simp
  · show (createDetection [mkDRow 0 _] 1 _).1.length = 1
    rw [hstep]
    rfl
  · show ∀ r ∈ (createDetection [mkDRow 0 _] 1 _).1, _
    rw [hstep]
    intro r hr
    simp only [List.mem_singleton] at hr
    subst hr
    simp [updateDRow, mkDRow, List.length_append]

/-- Witness for `rule_threshold_one_detection_then_update`: the seed
scenario, six `vpn_login_fail` events from `192.168.100.50` for tenant T1
within 90 s against the `vpn_bruteforce` rule (`RULES` head), then a 7th. -/
theorem rule_threshold_one_detection_then_update_witness :
    ∃ d dNew : Detection,
      evaluateRule ⟨"vpn_bruteforce", "Multiple VPN login failures from same IP",
          ["vpn_login_fail"], 3, 15, "high", .srcIp⟩ (-900000)
        (⟨1, "T1", none, none, 0, "vpn_login_fail", some "192.168.100.50", some "u1"⟩ ::
          ([⟨2, "T1", none, none, 15000, "vpn_login_fail", some "192.168.100.50", some "u2"⟩,
            ⟨3, "T1", none, none, 30000, "vpn_login_fail", some "192.168.100.50", some "u3"⟩,
            ⟨4, "T1", none, none, 45000, "vpn_login_fail", some "192.168.100.50", some "u4"⟩,
            ⟨5, "T1", none, none, 60000, "vpn_login_fail", some "192.168.100.50", some "u5"⟩,
            ⟨6, "T1", none, none, 90000, "vpn_login_fail", some "192.168.100.50", some "u6"⟩])) = [d] ∧
      d.detection_type = "vpn_bruteforce" ∧
      d.severity = "high" ∧
      d.group_key = (some "192.168.100.50" : Option String).getD "" ∧
      d.event_count = 6 ∧
      (createDetection [] 0 d).1.length = 1 ∧
      evaluateRule ⟨"vpn_bruteforce", "Multiple VPN login failures from same IP",
          ["vpn_login_fail"], 3, 15, "high", .srcIp⟩ (-900000)
        (⟨1, "T1", none, none, 0, "vpn_login_fail", some "192.168.100.50", some "u1"⟩ ::
          ([⟨2, "T1", none, none, 15000, "vpn_login_fail", some "192.168.100.50", some "u2"⟩,
            ⟨3, "T1", none, none, 30000, "vpn_login_fail", some "192.168.100.50", some "u3"⟩,
            ⟨4, "T1", none, none, 45000, "vpn_login_fail", some "192.168.100.50", some "u4"⟩,
            ⟨5, "T1", none, none, 60000, "vpn_login_fail", some "192.168.100.50", some "u5"⟩,
            ⟨6, "T1", none, none, 90000, "vpn_login_fail", some "192.168.100.50", some "u6"⟩] ++
           [⟨7, "T1", none, none, 100000, "vpn_login_fail", some "192.168.100.50", some "u7"⟩])) = [dNew] ∧
      dNew.event_count = 6 + 1 ∧
      (createDetection (createDetection [] 0 d).1
        (createDetection [] 0 d).2 dNew).1.length = 1 ∧
      ∀ r ∈ (createDetection (createDetection [] 0 d).1
              (createDetection [] 0 d).2 dNew).1,
        r.eventCount = 6 + 1 ∧ r.reportedDigestId = none := by
  have h := rule_threshold_one_detection_then_update
    ⟨"vpn_bruteforce", "Multiple VPN login failures from same IP",
     ["vpn_login_fail"], 3, 15, "high", .srcIp⟩ (-900000)
    ⟨1, "T1", none, none, 0, "vpn_login_fail", some "192.168.100.50", some "u1"⟩
    ⟨7, "T1", none, none, 100000, "vpn_login_fail", some "192.168.100.50", some "u7"⟩
    [⟨2, "T1", none, none, 15000, "vpn_login_fail", some "192.168.100.50", some "u2"⟩,
     ⟨3, "T1", none, none, 30000, "vpn_login_fail", some "192.168.100.50", some "u3"⟩,
     ⟨4, "T1", none, none, 45000, "vpn_login_fail", some "192.168.100.50", some "u4"⟩,
     ⟨5, "T1", none, none, 60000, "vpn_login_fail", some "192.168.100.50", some "u5"⟩,
     ⟨6, "T1", none, none, 90000, "vpn_login_fail", some "192.168.100.50", some "u6"⟩]
    ⟨"T1", none, none, some "192.168.100.50"⟩
    (by decide) (by decide) (by decide) (by decide) (by decide)
  exact h

/-- C3 counterexample: starting from an empty table, two rule matches for
the same `(tenant_id, detection_type, group_key)` whose windows do not
overlap leave TWO open detection rows for that key: the probe in
`createDetection` also requires `last_event_at ≥ candidate.first_event_at`,
so the second match inserts instead of updating. -/
theorem two_open_detections_counterexample :
    (openRowsFor
      (createDetection
        (createDetection [] 0
          ⟨"t1", none, none, "vpn_bruteforce", "high", "10.0.0.1",
           3, 0, 10, [1, 2, 3]⟩).1
        (createDetection [] 0
          ⟨"t1", none, none, "vpn_bruteforce", "high", "10.0.0.1",
           3, 0, 10, [1, 2, 3]⟩).2
        ⟨"t1", none, none, "vpn_bruteforce", "high", "10.0.0.1",
         3, 20, 30, [4, 5, 6]⟩).1
      "t1" "vpn_bruteforce" "10.0.0.1").length = 2 := by decide

/-- C3 (amended): when an open detection for the candidate bucket whose
`last_event_at` is at or after the candidate `first_event_at` exists,
`createDetection` updates that row in place: the table keeps its length,
no id is consumed, and the matched row carries the new count, last
timestamp and related ids. -/
theorem createDetection_updates_on_overlap (db : List DRow) (nextId : Nat)
    (d : Detection) (r : DRow) (h : db.find? (openMatch d) = some r) :
    (createDetection db nextId d).1.length = db.length ∧
    (createDetection db nextId d).2 = nextId ∧
    { r with eventCount := d.event_count, lastEventAt := d.last_event_at,
             relatedEventIds := d.related_event_ids }
      ∈ (createDetection db nextId d).1 := by
  have hr : r ∈ db := List.mem_of_find?_eq_some h
  refine ⟨?_, ?_, ?_⟩
  · simp [createDetection, h]
  · simp [createDetection, h]
  · simp only [createDetection, h]
    have := List.mem_map_of_mem (fun row =>
      if row.id = r.id then
        { row with eventCount := d.event_count,
                   lastEventAt := d.last_event_at,
                   relatedEventIds := d.related_event_ids }
      else row) hr
    simpa using this

/-- Witness for `createDetection_updates_on_overlap`: a concrete open row
with an overlapping window is updated, not duplicated. -/
theorem createDetection_updates_on_overlap_witness :
    (createDetection
      [⟨7, "t1", none, none, "vpn_bruteforce", "high", "10.0.0.1",
        15, 3, 0, 10, [1, 2, 3], none⟩] 8
      ⟨"t1", none, none, "vpn_bruteforce", "high", "10.0.0.1",
       4, 5, 40, [1, 2, 3, 4]⟩).1.length = 1 ∧
    (createDetection
      [⟨7, "t1", none, none, "vpn_bruteforce", "high", "10.0.0.1",
        15, 3, 0, 10, [1, 2, 3], none⟩] 8
      ⟨"t1", none, none, "vpn_bruteforce", "high", "10.0.0.1",
       4, 5, 40, [1, 2, 3, 4]⟩).2 = 8 ∧
    (⟨7, "t1", none, none, "vpn_bruteforce", "high", "10.0.0.1",
      15, 4, 0, 40, [1, 2, 3, 4], none⟩ : DRow)
      ∈ (createDetection
          [⟨7, "t1", none, none, "vpn_bruteforce", "high", "10.0.0.1",
            15, 3, 0, 10, [1, 2, 3], none⟩] 8
          ⟨"t1", none, none, "vpn_bruteforce", "high", "10.0.0.1",
           4, 5, 40, [1, 2, 3, 4]⟩).1 := by
  have h := createDetection_updates_on_overlap
    [⟨7, "t1", none, none, "vpn_bruteforce", "high", "10.0.0.1",
      15, 3, 0, 10, [1, 2, 3], none⟩] 8
    ⟨"t1", none, none, "vpn_bruteforce", "high", "10.0.0.1",
     4, 5, 40, [1, 2, 3, 4]⟩
    ⟨7, "t1", none, none, "vpn_bruteforce", "high", "10.0.0.1",
     15, 3, 0, 10, [1, 2, 3], none⟩ (by decide)
  exact ⟨h.1, h.2.1, h.2.2⟩

/-! ## Normalizer

From `backend/src/workers` (symbols `processRawEvents` and
`normalizeAndStore`).  Only the columns the control flow reads are kept;
the FortiGate parser is irrelevant here and every parse is taken to
succeed. -/

/-- A `raw_events` row as the normalizer sees it. -/
structure RawRow where
  id : Nat
  parsed : Bool
  parseError : Option String
deriving Repr, DecidableEq

/-- A `normalized_events` row: only the `raw_event_id` reference matters
for the claims. -/
structure NormRow where
  rawEventId : Nat
deriving Repr, DecidableEq

structure EventsDb where
  raw : List RawRow
  normalized : List NormRow
deriving Repr, DecidableEq

/-- The `INSERT INTO normalized_events ...` statement. -/
def insertNormalized (db : EventsDb) (rid : Nat) : EventsDb :=
  { db with normalized := db.normalized ++ [⟨rid⟩] }

/-- The `UPDATE raw_events SET parsed = TRUE WHERE id = ...` statement. -/
def markParsed (db : EventsDb) (rid : Nat) : EventsDb :=
  let raw1 := db.raw.map (fun r => if r.id = rid then { r with parsed := true } else r)
  { db with raw := raw1 }

/-- `normalizeAndStore`: the INSERT and the UPDATE are two separate `sql`
statements executed one after the other, with no transaction around them.
`completed` is how many of the two statements ran before the run was cut
short (2 in the normal case, 1 when the process dies or the UPDATE throws
after the INSERT committed). -/
def normalizeAndStore (db : EventsDb) (rid : Nat) (completed : Nat) :
    EventsDb :=
  let db1 := if 1 ≤ completed then insertNormalized db rid else db
  if 2 ≤ completed then markParsed db1 rid else db1

/-- `processRawEvents(batchSize)` on a tick where every parse succeeds and
no statement fails: select rows with `parsed = FALSE` (oldest-first, here
table order) limited to the batch size, and run `normalizeAndStore` to
completion on each. -/
def processRawEvents (db : EventsDb) (batchSize : Nat) : EventsDb :=
  let batch := (db.raw.filter (fun r => !r.parsed)).take batchSize
  batch.foldl (fun acc r => normalizeAndStore acc r.id 2) db

/-- Number of normalized rows referencing the raw event `rid`. -/
def normalizedFor (db : EventsDb) (rid : Nat) : Nat :=
  (db.normalized.filter (fun n => n.rawEventId = rid)).length

/-- C4: the normalizer INSERT and the `parsed` UPDATE are not in one
transaction.  If the run stops after the INSERT, the normalized row
persists while the raw event stays `parsed = false`; the next pipeline
tick then selects the raw event again and inserts a second normalized row
for it — the claim says neither write would persist and duplicate ticks
cannot duplicate normalized rows. -/
theorem normalize_crash_duplicates_normalized :
    normalizedFor (normalizeAndStore ⟨[⟨1, false, none⟩], []⟩ 1 1) 1 = 1 ∧
    ((normalizeAndStore ⟨[⟨1, false, none⟩], []⟩ 1 1).raw.filter
      (fun r => !r.parsed)).length = 1 ∧
    normalizedFor
      (processRawEvents (normalizeAndStore ⟨[⟨1, false, none⟩], []⟩ 1 1) 500)
      1 = 2 := by decide

/-! ## Batcher

From `backend/src/workers` (symbol `createDigestForTenant`, called per
tenant by `createDigests`).  The SQL `ORDER BY` on the selected
detections only affects the rendered body, not the aggregates, so the
selection is kept in table order. -/

def severityOrder : List String := ["critical", "high", "medium", "low", "info"]

/-- JavaScript `severityOrder.indexOf(s)`: the index, or `-1` when the
string is not in the array. -/
def sevIndex (s : String) : Int :=
  match severityOrder.indexOf? s with
  | some i => (i : Int)
  | none => -1

/-- One step of the highest-severity loop: replace the current value when
the row severity has a smaller index. -/
def hsStep (cur s : String) : String :=
  if sevIndex s < sevIndex cur then s else cur

/-- The highest-severity loop of `createDigestForTenant`, starting at
`'info'`. -/
def highestSeverity (severities : List String) : String :=
  severities.foldl hsStep "info"

/-- The `digests` row the batcher inserts (the aggregate columns). -/
structure Digest where
  id : Nat
  tenantId : String
  windowStart : Int
  windowEnd : Int
  severity : String
  detectionCount : Nat
  eventCount : Nat
deriving Repr, DecidableEq

/-- `createDigestForTenant`: select the open detections of the tenant,
compute `window_start = min(first_event_at)`,
`window_end = max(last_event_at)`, the highest severity, the count and the
event sum, insert the digest, and set `reported_digest_id = digestId`
on the selected rows (`WHERE id = ANY(detectionIds)`).  Returns `none`
and leaves the table unchanged when the tenant has no open detection. -/
def createDigestForTenant (db : List DRow) (tenantId : String)
    (digestId : Nat) : Option Digest × List DRow :=
  let detections := db.filter
    (fun r => r.tenantId == tenantId && r.reportedDigestId == none)
  match detections with
  | [] => (none, db)
  | d0 :: rest =>
    let sel := d0 :: rest
    let totalEvents := sel.foldl (fun sum d => sum + d.eventCount) 0
    let highest := highestSeverity (sel.map (fun d => d.severity))
    let firstEventAt := sel.foldl (fun m d => if d.firstEventAt < m then d.firstEventAt else m) d0.firstEventAt
    let lastEventAt := sel.foldl (fun m d => if m < d.lastEventAt then d.lastEventAt else m) d0.lastEventAt
    let ids := sel.map (fun d => d.id)
    let updated := db.map (fun r => if ids.contains r.id then { r with reportedDigestId := some digestId } else r)
    (some ⟨digestId, tenantId, firstEventAt, lastEventAt, highest, sel.length, totalEvents⟩, updated)

/-! ## Theorems for the batcher -/

theorem foldl_add_eventCount (l : List DRow) (a : Nat) :
    l.foldl (fun sum d => sum + d.eventCount) a
      = a + (l.map (fun d => d.eventCount)).sum := by
  induction l generalizing a with
  | nil => simp
  | cons d l ih =>
    simp only [List.foldl_cons, List.map_cons, List.sum_cons]
    rw [ih]
    omega

theorem jsmin_le_init (f : DRow → Int) (c : Int) (l : List DRow) :
    l.foldl (fun m d => if f d < m then f d else m) c ≤ c := by
  induction l generalizing c with
  | nil => simp
  | cons d l ih =>
    simp only [List.foldl_cons]
    refine le_trans (ih _) ?_
    split <;> omega

theorem jsmin_le_mem (f : DRow → Int) (c : Int) (l : List DRow) :
    ∀ d ∈ l, l.foldl (fun m d => if f d < m then f d else m) c ≤ f d := by
  induction l generalizing c with
  | nil => simp
  | cons d0 l ih =>
    intro d hd
    simp only [List.foldl_cons]
    rcases List.mem_cons.mp hd with rfl | hd
    · refine le_trans (jsmin_le_init f _ l) ?_
      split <;> omega
    · exact ih _ d hd

theorem jsmin_mem_or_init (f : DRow → Int) (c : Int) (l : List DRow) :
    l.foldl (fun m d => if f d < m then f d else m) c = c ∨
    l.foldl (fun m d => if f d < m then f d else m) c ∈ l.map f := by
  induction l generalizing c with
  | nil => simp
  | cons d0 l ih =>
    simp only [List.foldl_cons, List.map_cons, List.mem_cons]
    rcases ih (if f d0 < c then f d0 else c) with h | h
    · rw [h]
      split
      · exact Or.inr (Or.inl rfl)
      · exact Or.inl rfl
    · exact Or.inr (Or.inr h)

theorem jsmax_init_le (f : DRow → Int) (c : Int) (l : List DRow) :
    c ≤ l.foldl (fun m d => if m < f d then f d else m) c := by
  induction l generalizing c with
  | nil => simp
  | cons d l ih =>
    simp only [List.foldl_cons]
    refine le_trans ?_ (ih _)
    split <;> omega

theorem jsmax_mem_le (f : DRow → Int) (c : Int) (l : List DRow) :
    ∀ d ∈ l, f d ≤ l.foldl (fun m d => if m < f d then f d else m) c := by
  induction l generalizing c with
  | nil => simp
  | cons d0 l ih =>
    intro d hd
    simp only [List.foldl_cons]
    rcases List.mem_cons.mp hd with rfl | hd
    · refine le_trans ?_ (jsmax_init_le f _ l)
      split <;> omega
    · exact ih _ d hd

theorem jsmax_mem_or_init (f : DRow → Int) (c : Int) (l : List DRow) :
    l.foldl (fun m d => if m < f d then f d else m) c = c ∨
    l.foldl (fun m d => if m < f d then f d else m) c ∈ l.map f := by
  induction l generalizing c with
  | nil => simp
  | cons d0 l ih =>
    simp only [List.foldl_cons, List.map_cons, List.mem_cons]
    rcases ih (if c < f d0 then f d0 else c) with h | h
    · rw [h]
      split
      · exact Or.inr (Or.inl rfl)
      · exact Or.inl rfl
    · exact Or.inr (Or.inr h)

theorem hsStep_or (c σ : String) : hsStep c σ = c ∨ hsStep c σ = σ := by
  unfold hsStep
  split
  · exact Or.inr rfl
  · exact Or.inl rfl

theorem hsStep_index_le_left (c σ : String) :
    sevIndex (hsStep c σ) ≤ sevIndex c := by
  unfold hsStep
  split <;> omega

theorem hsStep_index_le_right (c σ : String) :
    sevIndex (hsStep c σ) ≤ sevIndex σ := by
  unfold hsStep
  split <;> omega

theorem foldl_hs_le_init (l : List String) (c : String) :
    sevIndex (l.foldl hsStep c) ≤ sevIndex c := by
  induction l generalizing c with
  | nil => simp
  | cons σ l ih =>
    simp only [List.foldl_cons]
    exact le_trans (ih _) (hsStep_index_le_left c σ)

theorem foldl_hs_le_mem (l : List String) (c : String) :
    ∀ σ ∈ l, sevIndex (l.foldl hsStep c) ≤ sevIndex σ := by
  induction l generalizing c with
  | nil => simp
  | cons σ0 l ih =>
    intro σ hσ
    simp only [List.foldl_cons]
    rcases List.mem_cons.mp hσ with rfl | hσ
    · exact le_trans (foldl_hs_le_init l _) (hsStep_index_le_right c σ)
    · exact ih _ σ hσ

theorem foldl_hs_mem_or_init (l : List String) (c : String) :
    l.foldl hsStep c = c ∨ l.foldl hsStep c ∈ l := by
  induction l generalizing c with
  | nil => simp
  | cons σ0 l ih =>
    simp only [List.foldl_cons, List.mem_cons]
    rcases ih (hsStep c σ0) with h | h
    · rw [h]
      rcases hsStep_or c σ0 with h2 | h2
      · exact Or.inl h2
      · exact Or.inr (Or.inl h2)
    · exact Or.inr (Or.inr h)

theorem sevIndex_le_four (σ : String) (h : σ ∈ severityOrder) :
    sevIndex σ ≤ 4 := by
  simp only [severityOrder, List.mem_cons, List.mem_singleton,
    List.not_mem_nil, or_false] at h
  rcases h with rfl|rfl|rfl|rfl|rfl <;> decide

theorem sevIndex_eq_four_info (σ : String) (h : σ ∈ severityOrder)
    (h4 : sevIndex "info" ≤ sevIndex σ) : σ = "info" := by
  simp only [severityOrder, List.mem_cons, List.mem_singleton,
    List.not_mem_nil, or_false] at h
  rcases h with rfl|rfl|rfl|rfl|rfl <;> first | rfl | (exfalso; revert h4; decide)

/-- The highest-severity loop picks a severity that occurs in the list,
provided the list is nonempty and holds only known severities. -/
theorem highestSeverity_mem (σ0 : String) (srest : List String)
    (hvalid : ∀ σ ∈ σ0 :: srest, σ ∈ severityOrder) :
    highestSeverity (σ0 :: srest) ∈ σ0 :: srest := by
  unfold highestSeverity
  rcases foldl_hs_mem_or_init (σ0 :: srest) "info" with h | h
  · have h1 := foldl_hs_le_mem (σ0 :: srest) "info" σ0 (List.mem_cons_self _ _)
    rw [h] at h1
    have h0 : σ0 = "info" :=
      sevIndex_eq_four_info σ0 (hvalid σ0 (List.mem_cons_self _ _)) h1
    rw [h, ← h0]
    exact List.mem_cons_self _ _
  · exact h

/-- C6: for a tenant with at least one open detection,
`createDigestForTenant` creates exactly one digest whose severity is the
maximum severity of the selected detections (critical > high > medium >
low > info), whose `detection_count` is their number, `event_count` the
sum of their counts, `window_start` the minimum `first_event_at` and
`window_end` the maximum `last_event_at`; and every selected detection
gets `reported_digest_id` set to the digest id. -/
theorem createDigestForTenant_spec (db : List DRow) (tenantId : String)
    (digestId : Nat) (d0 : DRow) (rest : List DRow)
    (hsel : db.filter
      (fun r => r.tenantId == tenantId && r.reportedDigestId == none)
      = d0 :: rest)
    (hvalid : ∀ d ∈ d0 :: rest, d.severity ∈ severityOrder) :
    ∃ g : Digest,
      (createDigestForTenant db tenantId digestId).1 = some g ∧
      g.id = digestId ∧
      g.tenantId = tenantId ∧
      g.detectionCount = (d0 :: rest).length ∧
      g.eventCount = ((d0 :: rest).map (fun d => d.eventCount)).sum ∧
      g.windowStart ∈ (d0 :: rest).map (fun d => d.firstEventAt) ∧
      (∀ d ∈ d0 :: rest, g.windowStart ≤ d.firstEventAt) ∧
      g.windowEnd ∈ (d0 :: rest).map (fun d => d.lastEventAt) ∧
      (∀ d ∈ d0 :: rest, d.lastEventAt ≤ g.windowEnd) ∧
      g.severity ∈ (d0 :: rest).map (fun d => d.severity) ∧
      (∀ d ∈ d0 :: rest, sevIndex g.severity ≤ sevIndex d.severity) ∧
      (∀ d ∈ d0 :: rest,
        { d with reportedDigestId := some digestId }
          ∈ (createDigestForTenant db tenantId digestId).2) := by
  simp only [createDigestForTenant]
  rw [hsel]
  dsimp only
  refine ⟨_, rfl, rfl, rfl, rfl, ?_, ?_, ?_, ?_, ?_, ?_, ?_, ?_⟩
  · rw [foldl_add_eventCount]
    simp
  · rcases jsmin_mem_or_init (fun d => d.firstEventAt) d0.firstEventAt
      (d0 :: rest) with h | h
    · rw [h]
      exact List.mem_map_of_mem _ (List.mem_cons_self _ _)
    · exact h
  · intro d hd
    exact jsmin_le_mem (fun d => d.firstEventAt) d0.firstEventAt
      (d0 :: rest) d hd
  · rcases jsmax_mem_or_init (fun d => d.lastEventAt) d0.lastEventAt
      (d0 :: rest) with h | h
    · rw [h]
      exact List.mem_map_of_mem _ (List.mem_cons_self _ _)
    · exact h
  · intro d hd
    exact jsmax_mem_le (fun d => d.lastEventAt) d0.lastEventAt
      (d0 :: rest) d hd
  · have hvs : ∀ σ ∈ d0.severity :: rest.map (fun d => d.severity),
        σ ∈ severityOrder := by
      intro σ hσ
      rcases List.mem_cons.mp hσ with rfl | hσ
      · exact hvalid d0 (List.mem_cons_self _ _)
      · rcases List.mem_map.mp hσ with ⟨d, hd, rfl⟩
        exact hvalid d (List.mem_cons_of_mem _ hd)
    simpa using highestSeverity_mem d0.severity (rest.map (fun d => d.severity)) hvs
  · intro d hd
    have hmem : d.severity ∈ (d0 :: rest).map (fun d => d.severity) :=
      List.mem_map_of_mem _ hd
    exact foldl_hs_le_mem _ "info" d.severity hmem
  · intro d hd
    rw [← hsel] at hd
    have hd_db : d ∈ db := List.mem_of_mem_filter hd
    rw [hsel] at hd
    have hid : ((d0 :: rest).map (fun d => d.id)).contains d.id = true := by
      simpa using List.mem_map_of_mem (fun x => x.id) hd
    refine List.mem_map.mpr ⟨d, hd_db, ?_⟩
    dsimp only
    rw [if_pos hid]

/-- The two-detection table of the digest seed case: one critical and one
medium open detection for tenant T1. -/
def digestCaseDb : List DRow :=
  [⟨1, "T1", none, none, "admin_bruteforce", "critical", "9.9.9.9",
    15, 4, 0, 50, [1], none⟩,
   ⟨2, "T1", none, none, "config_change_burst", "medium", "alice",
    15, 11, 10, 80, [2], none⟩]

/-- Witness for `createDigestForTenant_spec`: two open detections for T1,
one critical and one medium; the digest is critical with count 2 and the
summed events, and both rows end up pointing at it. -/
theorem createDigestForTenant_spec_witness :
    (createDigestForTenant digestCaseDb "T1" 77).1
      = some ⟨77, "T1", 0, 80, "critical", 2, 15⟩ ∧
    (createDigestForTenant digestCaseDb "T1" 77).2
      = [⟨1, "T1", none, none, "admin_bruteforce", "critical", "9.9.9.9",
          15, 4, 0, 50, [1], some 77⟩,
         ⟨2, "T1", none, none, "config_change_burst", "medium", "alice",
          15, 11, 10, 80, [2], some 77⟩] := by
  obtain ⟨g, hg, hid, ht, hcount, hsum, hws, hwsle, hwe, hwele, hsev, hsevle, hupd⟩ :=
    createDigestForTenant_spec digestCaseDb "T1" 77
      ⟨1, "T1", none, none, "admin_bruteforce", "critical", "9.9.9.9",
       15, 4, 0, 50, [1], none⟩
      [⟨2, "T1", none, none, "config_change_burst", "medium", "alice",
        15, 11, 10, 80, [2], none⟩]
      (by decide) (by decide)
  constructor
  · rw [hg]
    congr 1
    have hval : (createDigestForTenant digestCaseDb "T1" 77).1
        = some (⟨77, "T1", 0, 80, "critical", 2, 15⟩ : Digest) := by decide
    rw [hg] at hval
    exact Option.some_inj.mp hval
  · decide

/-! ## AI knowledge cache and orchestrator client

From `backend/src/services/ai-learning.ts` (`generatePatternSignature`,
`categorizeCount`, `lookupCachedAnalysis`) and
`backend/src/services/ai-client.ts` (`analyzeDetectionWithAI`,
`buildResultFromCache`).  The SHA-256 digesting of the canonical
serialization is modelled by the serialization itself: the claims only
use the signature as an opaque cache key. -/

/-- The numeric evidence fields `generatePatternSignature` reads
(present only when the evidence carries them as numbers). -/
structure Evidence where
  uniqueIps : Option Nat
  uniqueUsers : Option Nat
  totalAttempts : Option Nat
deriving Repr, DecidableEq

/-- The part of a detection the AI client reads. -/
structure AIDetection where
  tenant_id : String
  detection_type : String
  severity : String
  evidence : Evidence
deriving Repr, DecidableEq

/-- `categorizeCount`: discretize a count into the fixed ranges. -/
def categorizeCount (count : Nat) : String :=
  if count ≤ 1 then "1"
  else if count ≤ 5 then "2-5"
  else if count ≤ 10 then "6-10"
  else if count ≤ 25 then "11-25"
  else if count ≤ 50 then "26-50"
  else if count ≤ 100 then "51-100"
  else "100+"

/-- `generatePatternSignature`: canonical serialization of
`detection_type`, `severity` and the bucketized evidence counts (each
bucket key included only when the numeric field is present), standing in
for its SHA-256 hex digest. -/
def generatePatternSignature (d : AIDetection) : String :=
  let ipPart := match d.evidence.uniqueIps with
    | none => ""
    | some n => "ip_count_range=" ++ categorizeCount n ++ ";"
  let userPart := match d.evidence.uniqueUsers with
    | none => ""
    | some n => "user_count_range=" ++ categorizeCount n ++ ";"
  let attemptPart := match d.evidence.totalAttempts with
    | none => ""
    | some n => "attempt_count_range=" ++ categorizeCount n ++ ";"
  "type=" ++ d.detection_type ++ "|severity=" ++ d.severity ++ "|"
    ++ ipPart ++ userPart ++ attemptPart

/-- One row of `ai_knowledge_cache` (the columns the lookup touches). -/
structure CacheRow where
  id : Nat
  tenantId : String
  patternSignature : String
  threatDetected : Bool
  reportSubject : Option String
  reportBody : Option String
  hitCount : Nat
  lastHitAt : Option Int
  expiresAt : Int
  isValid : Bool
deriving Repr, DecidableEq

/-- The record `lookupCachedAnalysis` returns on a hit. -/
structure CachedAnalysis where
  id : Nat
  patternSignature : String
  threatDetected : Bool
  reportSubject : Option String
  reportBody : Option String
  hitCount : Nat
deriving Repr, DecidableEq

/-- The WHERE clause of the lookup: tenant, signature, `is_valid = TRUE`
and `expires_at > NOW()`. -/
def cacheHitPred (tenantId sig : String) (now : Int) (r : CacheRow) : Bool :=
  r.tenantId == tenantId && r.patternSignature == sig && r.isValid &&
  decide (now < r.expiresAt)

/-- `lookupCachedAnalysis`: `SELECT ... LIMIT 1` over the valid,
unexpired rows; on a hit, `UPDATE ... SET hit_count = hit_count + 1,
last_hit_at = NOW()` and return the entry with the incremented count. -/
def lookupCachedAnalysis (db : List CacheRow) (now : Int)
    (tenantId sig : String) : Option CachedAnalysis × List CacheRow :=
  match db.find? (cacheHitPred tenantId sig now) with
  | none => (none, db)
  | some row =>
    let db1 := db.map (fun r => if r.id = row.id then { r with hitCount := r.hitCount + 1, lastHitAt := some now } else r)
    (some ⟨row.id, row.patternSignature, row.threatDetected,
      row.reportSubject, row.reportBody, row.hitCount + 1⟩, db1)

/-- The slice of `AIAnalysisResult` the claim observes. -/
structure AIClientResult where
  fromCache : Bool
  report : Option (String × String)
deriving Repr, DecidableEq

/-- `analyzeDetectionWithAI` observed from the outside: its result, how
many orchestrator POSTs it made, and the cache afterwards. -/
structure AIClientOutcome where
  result : AIClientResult
  downstreamCalls : Nat
  cache : List CacheRow
deriving Repr, DecidableEq

/-- `buildResultFromCache`: `from_cache: true`, with the report carried
only when both `report_subject` and `report_body` are present (and truthy,
i.e. non-empty). -/
def buildResultFromCache (c : CachedAnalysis) : AIClientResult :=
  let rep := match c.reportSubject, c.reportBody with
    | some subj, some body =>
      if subj ≠ "" ∧ body ≠ "" then some (subj, body) else none
    | _, _ => none
  ⟨true, rep⟩

/-- The cache-check head of `analyzeDetectionWithAI`: compute the
signature, call `lookup`; a hit short-circuits with the synthetic cached
result and no orchestrator call; a miss proceeds to one orchestrator POST
(whose processing is outside these claims). -/
def analyzeDetectionWithAI (db : List CacheRow) (now : Int)
    (d : AIDetection) : AIClientOutcome :=
  let r := lookupCachedAnalysis db now d.tenant_id (generatePatternSignature d)
  match r.1 with
  | some c => ⟨buildResultFromCache c, 0, r.2⟩
  | none => ⟨⟨false, none⟩, 1, r.2⟩

/-! ## Theorems for the AI cache -/

/-- C8: a lookup hit comes only from a row that is valid and unexpired at
the moment of the read, whose hit counter gets incremented and
`last_hit_at` set; and on such a hit the AI client returns
`from_cache = true`, carries the cached report subject and body when both
are present, and makes no orchestrator call. -/
theorem cache_hit_no_downstream (db : List CacheRow) (now : Int)
    (d : AIDetection) (e : CachedAnalysis) (db1 : List CacheRow)
    (h : lookupCachedAnalysis db now d.tenant_id (generatePatternSignature d)
      = (some e, db1)) :
    (∃ row ∈ db,
      row.tenantId = d.tenant_id ∧
      row.patternSignature = generatePatternSignature d ∧
      row.isValid = true ∧
      now < row.expiresAt ∧
      e.hitCount = row.hitCount + 1 ∧
      e.reportSubject = row.reportSubject ∧
      e.reportBody = row.reportBody ∧
      { row with hitCount := row.hitCount + 1, lastHitAt := some now } ∈ db1) ∧
    (analyzeDetectionWithAI db now d).result.fromCache = true ∧
    (analyzeDetectionWithAI db now d).downstreamCalls = 0 ∧
    (analyzeDetectionWithAI db now d).cache = db1 ∧
    (∀ subj body, e.reportSubject = some subj → e.reportBody = some body →
      subj ≠ "" → body ≠ "" →
      (analyzeDetectionWithAI db now d).result.report = some (subj, body)) := by
  unfold lookupCachedAnalysis at h
  cases hf : db.find?
      (cacheHitPred d.tenant_id (generatePatternSignature d) now) with
  | none =>
    rw [hf] at h
    simp at h
  | some row =>
    rw [hf] at h
    have hrowdb : row ∈ db := List.mem_of_find?_eq_some hf
    have hpred := List.find?_some hf
    simp only [cacheHitPred, Bool.and_eq_true, beq_iff_eq,
      decide_eq_true_eq] at hpred
    obtain ⟨⟨⟨hten, hsig⟩, hval⟩, hexp⟩ := hpred
    obtain ⟨he, hdb1⟩ := Prod.mk.injEq _ _ _ _ ▸ h
    have he2 : e = ⟨row.id, row.patternSignature, row.threatDetected,
        row.reportSubject, row.reportBody, row.hitCount + 1⟩ :=
      (Option.some_inj.mp he).symm
    have hana : analyzeDetectionWithAI db now d
        = ⟨buildResultFromCache e, 0, db1⟩ := by
      unfold analyzeDetectionWithAI lookupCachedAnalysis
      rw [hf]
      dsimp only
      rw [← hdb1, he2]
    refine ⟨⟨row, hrowdb, hten, hsig, hval, hexp, ?_, ?_, ?_, ?_⟩, ?_, ?_, ?_, ?_⟩
    · rw [he2]
    · rw [he2]
    · rw [he2]
    · rw [← hdb1]
      refine List.mem_map.mpr ⟨row, hrowdb, ?_⟩
      dsimp only
      rw [if_pos rfl]
    · rw [hana]
      rfl
    · rw [hana]
    · rw [hana]
    · intro subj body hs hb hsne hbne
      rw [he2] at hs hb
      dsimp only at hs hb
      rw [hana]
      simp only [buildResultFromCache, he2]
      rw [hs, hb]
      dsimp only
      rw [if_pos ⟨hsne, hbne⟩]

/-- A concrete valid cache row for the witness. -/
def cacheCaseDb : List CacheRow :=
  [⟨3, "T1", generatePatternSignature
      ⟨"T1", "vpn_bruteforce", "high", ⟨some 4, some 2, some 7⟩⟩,
    true, some "VPN attack", some "Block the source IP.",
    5, none, 1000000, true⟩]

/-- Witness for `cache_hit_no_downstream`: a concrete valid, unexpired
cache entry is hit, its counter incremented, and the client answers from
the cache with the stored report, without calling the orchestrator. -/
theorem cache_hit_no_downstream_witness :
    (∃ row ∈ cacheCaseDb,
      row.tenantId = "T1" ∧
      row.patternSignature = generatePatternSignature
        ⟨"T1", "vpn_bruteforce", "high", ⟨some 4, some 2, some 7⟩⟩ ∧
      row.isValid = true ∧
      (500 : Int) < row.expiresAt ∧
      (⟨3, generatePatternSignature
          ⟨"T1", "vpn_bruteforce", "high", ⟨some 4, some 2, some 7⟩⟩,
        true, some "VPN attack", some "Block the source IP.", 6⟩ :
          CachedAnalysis).hitCount = row.hitCount + 1 ∧
      (some "VPN attack" : Option String) = row.reportSubject ∧
      (some "Block the source IP." : Option String) = row.reportBody ∧
      { row with hitCount := row.hitCount + 1, lastHitAt := some 500 }
        ∈ (lookupCachedAnalysis cacheCaseDb 500 "T1"
            (generatePatternSignature
              ⟨"T1", "vpn_bruteforce", "high", ⟨some 4, some 2, some 7⟩⟩)).2) ∧
    (analyzeDetectionWithAI cacheCaseDb 500
      ⟨"T1", "vpn_bruteforce", "high", ⟨some 4, some 2, some 7⟩⟩).result.fromCache = true ∧
    (analyzeDetectionWithAI cacheCaseDb 500
      ⟨"T1", "vpn_bruteforce", "high", ⟨some 4, some 2, some 7⟩⟩).downstreamCalls = 0 ∧
    (analyzeDetectionWithAI cacheCaseDb 500
      ⟨"T1", "vpn_bruteforce", "high", ⟨some 4, some 2, some 7⟩⟩).cache
      = (lookupCachedAnalysis cacheCaseDb 500 "T1"
          (generatePatternSignature
            ⟨"T1", "vpn_bruteforce", "high", ⟨some 4, some 2, some 7⟩⟩)).2 ∧
    (∀ subj body,
      (some "VPN attack" : Option String) = some subj →
      (some "Block the source IP." : Option String) = some body →
      subj ≠ "" → body ≠ "" →
      (analyzeDetectionWithAI cacheCaseDb 500
        ⟨"T1", "vpn_bruteforce", "high",
          ⟨some 4, some 2, some 7⟩⟩).result.report = some (subj, body)) := by
  have h := cache_hit_no_downstream cacheCaseDb 500
    ⟨"T1", "vpn_bruteforce", "high", ⟨some 4, some 2, some 7⟩⟩
    ⟨3, generatePatternSignature
        ⟨"T1", "vpn_bruteforce", "high", ⟨some 4, some 2, some 7⟩⟩,
      true, some "VPN attack", some "Block the source IP.", 6⟩
    (lookupCachedAnalysis cacheCaseDb 500 "T1"
      (generatePatternSignature
        ⟨"T1", "vpn_bruteforce", "high", ⟨some 4, some 2, some 7⟩⟩)).2
    (by decide)
  exact h

/-! ## Ingest endpoints

From the backend entry point: `SyslogIngestBodySchema`,
`BulkSyslogIngestBodySchema` and the two `POST /v1/ingest/syslog`
handlers.  The Zod object schema is non-strict, so unknown keys — in
particular a body-supplied `tenant_id` — are stripped from the parse
result; the `datetime()` format check on `received_at` is abstracted to
the same nonemptiness check as the other optional string fields, which is
orthogonal to what the claim observes. -/

/-- A request body as a client may send it, including a `tenant_id` field
the schema does not declare. -/
structure IngestBody where
  tenant_id : Option String
  site_id : Option String
  source_id : Option String
  received_at : Option String
  source_ip : Option String
  raw_message : Option String
  collector_name : Option String
deriving Repr, DecidableEq

/-- The parse result of `SyslogIngestBodySchema`: no tenant field exists
in it, Zod strips undeclared keys. -/
structure ParsedIngestBody where
  site_id : Option String
  source_id : Option String
  received_at : Option String
  source_ip : Option String
  raw_message : String
  collector_name : Option String
deriving Repr, DecidableEq

/-- `z.string().min(1).optional()`: absent, or present and non-empty. -/
def optFieldOk : Option String → Bool
  | none => true
  | some str => str ≠ ""

/-- `SyslogIngestBodySchema.safeParse`. -/
def safeParseSyslogBody (b : IngestBody) : Option ParsedIngestBody :=
  match b.raw_message with
  | none => none
  | some msg =>
    if msg ≠ "" ∧ optFieldOk b.site_id ∧ optFieldOk b.source_id ∧
       optFieldOk b.received_at ∧ optFieldOk b.source_ip ∧
       optFieldOk b.collector_name then
      some ⟨b.site_id, b.source_id, b.received_at, b.source_ip, msg,
        b.collector_name⟩
    else none

/-- A job pushed onto the `ingest` queue. -/
structure IngestJob where
  tenant_id : String
  site_id : Option String
  source_id : Option String
  received_at : String
  source_ip : Option String
  raw_message : String
  collector_name : Option String
deriving Repr, DecidableEq

inductive IngestReply where
  | unauthorized
  | badRequest
  | accepted (count : Nat)
deriving Repr, DecidableEq

/-- JavaScript `o || dflt` on an optional string: the default replaces
both absence and the empty (falsy) string. -/
def jsOrString (o : Option String) (dflt : String) : String :=
  match o with
  | none => dflt
  | some str => if str = "" then dflt else str

/-- The job payload built by the handler:
`{ tenant_id: tenantId, ...body, received_at: body.received_at || now }`. -/
def mkIngestJob (tenantId : String) (p : ParsedIngestBody) (now : String) :
    IngestJob :=
  ⟨tenantId, p.site_id, p.source_id, jsOrString p.received_at now,
   p.source_ip, p.raw_message, p.collector_name⟩

/-- The `POST /v1/ingest/syslog` handler after auth: 401 without tenant
context, 400 on schema failure, otherwise enqueue one job (with the
tenant taken from the authenticated context) and reply 202. -/
def handleSyslogIngest (authTenant : Option String) (b : IngestBody)
    (now : String) : IngestReply × List IngestJob :=
  match authTenant with
  | none => (.unauthorized, [])
  | some t =>
    match safeParseSyslogBody b with
    | none => (.badRequest, [])
    | some p => (.accepted 1, [mkIngestJob t p now])

/-- Element-wise parse of the bulk `events` array: any failing element
fails the whole validation, as in `z.array(schema)`. -/
def parseAllSyslogBodies : List IngestBody → Option (List ParsedIngestBody)
  | [] => some []
  | b :: rest =>
    match safeParseSyslogBody b, parseAllSyslogBodies rest with
    | some p, some ps => some (p :: ps)
    | _, _ => none

/-- The `POST /v1/ingest/syslog/bulk` handler after auth: validate the
array (1 to 100 entries, each matching the schema), enqueue one job per
event with the authenticated tenant, reply 202 with `accepted = N`. -/
def handleBulkSyslogIngest (authTenant : Option String)
    (events : List IngestBody) (now : String) :
    IngestReply × List IngestJob :=
  match authTenant with
  | none => (.unauthorized, [])
  | some t =>
    match parseAllSyslogBodies events with
    | none => (.badRequest, [])
    | some ps =>
      if 1 ≤ events.length ∧ events.length ≤ 100 then
        (.accepted events.length, ps.map (fun p => mkIngestJob t p now))
      else (.badRequest, [])

theorem parseAll_strip_tenant (x : Option String) (events : List IngestBody) :
    parseAllSyslogBodies (events.map (fun e => { e with tenant_id := x }))
      = parseAllSyslogBodies events := by
  induction events with
  | nil => rfl
  | cons e es ih =>
    simp only [List.map_cons, parseAllSyslogBodies]
    rw [ih]
    rfl

/-- C9: the tenant of every enqueued job is the authenticated tenant, and
a body-supplied `tenant_id` changes nothing — the handler and the bulk
handler reply identically and enqueue identical jobs whether or not the
bodies carry a `tenant_id` field. -/
theorem ingest_tenant_from_auth_only (auth : Option String) (b : IngestBody)
    (x : Option String) (events : List IngestBody) (now : String) :
    handleSyslogIngest auth { b with tenant_id := x } now
      = handleSyslogIngest auth b now ∧
    (∀ j ∈ (handleSyslogIngest auth b now).2, auth = some j.tenant_id) ∧
    handleBulkSyslogIngest auth
        (events.map (fun e => { e with tenant_id := x })) now
      = handleBulkSyslogIngest auth events now ∧
    (∀ j ∈ (handleBulkSyslogIngest auth events now).2,
      auth = some j.tenant_id) := by
  refine ⟨rfl, ?_, ?_, ?_⟩
  · intro j hj
    match auth with
    | none => simp [handleSyslogIngest] at hj
    | some t =>
      simp only [handleSyslogIngest] at hj
      cases hp : safeParseSyslogBody b with
      | none => rw [hp] at hj; simp at hj
      | some p =>
        rw [hp] at hj
        simp only [List.mem_singleton] at hj
        subst hj
        rfl
  · match auth with
    | none => rfl
    | some t =>
      simp only [handleBulkSyslogIngest]
      rw [parseAll_strip_tenant]
      cases parseAllSyslogBodies events with
      | none => rfl
      | some ps =>
        dsimp only
        rw [List.length_map]
  · intro j hj
    match auth with
    | none => simp [handleBulkSyslogIngest] at hj
    | some t =>
      simp only [handleBulkSyslogIngest] at hj
      cases hp : parseAllSyslogBodies events with
      | none => rw [hp] at hj; simp at hj
      | some ps =>
        rw [hp] at hj
        dsimp only at hj
        by_cases hn : 1 ≤ events.length ∧ events.length ≤ 100
        · rw [if_pos hn] at hj
          simp only [List.mem_map] at hj
          obtain ⟨p, _, rfl⟩ := hj
          rfl
        · rw [if_neg hn] at hj
          simp at hj

end Centinela
